import Mathlib

/-!
Verification of `discord-rpc-new` (CuteNikki/discord-rpc-new).

Shallow embedding of the core of the library:
* the length-prefixed binary framing codec of `src/src/connection.ts`
  (`SocketConnection.send`, `SocketConnection.setupBufferHandler`),
* the pipe-discovery retry loop of `SocketConnection.connect`,
* the presence builder of `src/src/builder.ts`,
* the client dispatch logic of `src/src/client.ts` and the event-emitter
  based client (`Client.handleIncoming`, `Client.request`, `Client.setActivity`).

Buffers are modelled as `List Nat` (one `Nat` per byte), JavaScript strings as
Lean `String`, thrown `Error`s as `Except String`, and the nondeterministic
inputs (`crypto.randomUUID()`, `process.pid`, socket outcomes) as explicit
parameters.
-/

set_option autoImplicit false

namespace DiscordRPC

/-- Opcodes of the IPC protocol.  Modelled from the spec: the enum file
`src/types/opcodes.ts` is not present under `src/`; the spec's wire table
gives `HANDSHAKE=0, FRAME=1, CLOSE=2, PING=3, PONG=4`. -/
inductive OpCode where
  | handshake
  | frame
  | close
  | ping
  | pong
deriving DecidableEq, Repr

/-- Numeric value of an opcode as written on the wire. -/
def OpCode.toNat : OpCode → Nat
  | .handshake => 0
  | .frame => 1
  | .close => 2
  | .ping => 3
  | .pong => 4

/-- `Buffer.writeUInt32LE(n, off)`: the four bytes of `n` in little-endian
order.  (Node's `writeUInt32LE` requires `n < 2^32`; we keep the byte
decomposition, which agrees with Node on that range.) -/
def writeUInt32LE (n : Nat) : List Nat :=
  [n % 256, n / 256 % 256, n / 65536 % 256, n / 16777216 % 256]

/-- `Buffer.readUInt32LE(off)` on a byte list: little-endian 32-bit read at
offset `off` (out-of-range bytes read as 0, which never happens on the
in-range reads the decoder performs). -/
def readUInt32LE (b : List Nat) (off : Nat) : Nat :=
  b.getD off 0 + 256 * b.getD (off + 1) 0 + 65536 * b.getD (off + 2) 0 +
    16777216 * b.getD (off + 3) 0

/-- `SocketConnection.send(op, payload)` (src/src/connection.ts lines 222-228):
serialize the payload (`JSON.stringify` is the parameter `stringify`), build
the 8-byte header (opcode at offset 0, payload byte length at offset 4, both
little-endian), and produce `Buffer.concat([header, encoded])` — the single
unit passed to one `socket.write` call. -/
def sendBytes {α : Type} (stringify : α → List Nat) (op : OpCode) (payload : α) :
    List Nat :=
  let encoded := stringify payload
  writeUInt32LE op.toNat ++ writeUInt32LE encoded.length ++ encoded

/-- The packet-extraction loop of `SocketConnection.setupBufferHandler`
(src/src/connection.ts lines 191-206): while the buffer holds at least the
8 header bytes, read `op` and `len`; if all `8 + len` bytes of the frame have
arrived, slice out the payload (`buffer.subarray(8, 8 + len)`), parse it
(`JSON.parse` is the parameter `parse`), emit `(op, payload)` to the callback,
and drop the consumed prefix; otherwise stop and keep the partial data.
Returns the emitted `(opcode, payload)` pairs in order together with the
retained buffer. -/
def drain {α : Type} (parse : List Nat → α) (buffer : List Nat) :
    List (Nat × α) × List Nat :=
  if h : 8 ≤ buffer.length then
    let op := readUInt32LE buffer 0
    let len := readUInt32LE buffer 4
    if h2 : 8 + len ≤ buffer.length then
      let packetData := (buffer.drop 8).take len
      let rest := buffer.drop (8 + len)
      let out := drain parse rest
      ((op, parse packetData) :: out.1, out.2)
    else
      ([], buffer)
  else
    ([], buffer)
termination_by buffer.length
decreasing_by
  simp only [List.length_drop]
  omega

/-- One `'data'` event of `setupBufferHandler` (src/src/connection.ts lines
186-207): append the chunk to the accumulation buffer, then run the
extraction loop. -/
def feed {α : Type} (parse : List Nat → α) (buffer : List Nat) (chunk : List Nat) :
    List (Nat × α) × List Nat :=
  drain parse (buffer ++ chunk)

/-- A sequence of `'data'` events: feed the chunks one at a time, starting
from buffer state `buffer`, collecting all emitted `(opcode, payload)` pairs
in order and the final retained buffer. -/
def feedAll {α : Type} (parse : List Nat → α) (buffer : List Nat) :
    List (List Nat) → List (Nat × α) × List Nat
  | [] => ([], buffer)
  | c :: cs =>
    let first := feed parse buffer c
    let restOut := feedAll parse first.2 cs
    (first.1 ++ restOut.1, restOut.2)

example : drain (fun b => b) (sendBytes (fun b => b) OpCode.frame [10, 20]) =
    ([(1, [10, 20])], []) := by
  simp [drain, sendBytes, writeUInt32LE, readUInt32LE, OpCode.toNat]

example : feedAll (fun b => b) []
    [[1, 0, 0, 0, 2], [0, 0, 0, 7], [9]] = ([(1, [7, 9])], []) := by
  simp [feedAll, feed, drain, readUInt32LE]

/-- Unfolding: fewer than 8 buffered bytes — the loop body never runs. -/
theorem drain_short {α : Type} (parse : List Nat → α) (buffer : List Nat)
    (h : ¬ 8 ≤ buffer.length) : drain parse buffer = ([], buffer) := by
  rw [drain]
  simp [h]

/-- Unfolding: a header is present but the frame is incomplete — the loop
stops and retains the buffer. -/
theorem drain_incomplete {α : Type} (parse : List Nat → α) (buffer : List Nat)
    (h : 8 ≤ buffer.length) (h2 : ¬ 8 + readUInt32LE buffer 4 ≤ buffer.length) :
    drain parse buffer = ([], buffer) := by
  rw [drain]
  simp [h, h2]

/-- Unfolding: a complete frame is present — it is emitted and the loop
continues on the remainder. -/
theorem drain_step {α : Type} (parse : List Nat → α) (buffer : List Nat)
    (h : 8 ≤ buffer.length) (h2 : 8 + readUInt32LE buffer 4 ≤ buffer.length) :
    drain parse buffer =
      ((readUInt32LE buffer 0,
          parse ((buffer.drop 8).take (readUInt32LE buffer 4))) ::
            (drain parse (buffer.drop (8 + readUInt32LE buffer 4))).1,
        (drain parse (buffer.drop (8 + readUInt32LE buffer 4))).2) := by
  rw [drain]
  simp [h, h2]

/-- A 32-bit read strictly inside the left part of an append ignores the
right part. -/
theorem readUInt32LE_append {b c : List Nat} {off : Nat} (h : off + 4 ≤ b.length) :
    readUInt32LE (b ++ c) off = readUInt32LE b off := by
  unfold readUInt32LE
  rw [List.getD_append b c 0 off (by omega), List.getD_append b c 0 (off + 1) (by omega),
    List.getD_append b c 0 (off + 2) (by omega), List.getD_append b c 0 (off + 3) (by omega)]

/-- The extraction loop commutes with appending further bytes: draining
`b ++ c` emits the frames of `b` first, then continues as if the retained
remainder of `b` had been prepended to `c`. -/
theorem drain_append {α : Type} (parse : List Nat → α) (b c : List Nat) :
    drain parse (b ++ c) =
      ((drain parse b).1 ++ (drain parse ((drain parse b).2 ++ c)).1,
        (drain parse ((drain parse b).2 ++ c)).2) := by
  generalize hn : b.length = n
  induction n using Nat.strong_induction_on generalizing b with
  | _ n ih =>
    by_cases h8 : 8 ≤ b.length
    · by_cases hcomp : 8 + readUInt32LE b 4 ≤ b.length
      · have hr0 : readUInt32LE (b ++ c) 0 = readUInt32LE b 0 :=
          readUInt32LE_append (by omega)
        have hr4 : readUInt32LE (b ++ c) 4 = readUInt32LE b 4 :=
          readUInt32LE_append (by omega)
        have h8' : 8 ≤ (b ++ c).length := by
          rw [List.length_append]; omega
        have hcomp' : 8 + readUInt32LE (b ++ c) 4 ≤ (b ++ c).length := by
          rw [hr4, List.length_append]; omega
        rw [drain_step parse (b ++ c) h8' hcomp', drain_step parse b h8 hcomp]
        have hpacket : ((b ++ c).drop 8).take (readUInt32LE (b ++ c) 4) =
            (b.drop 8).take (readUInt32LE b 4) := by
          rw [hr4, List.drop_append_of_le_length (by omega),
            List.take_append_of_le_length (by rw [List.length_drop]; omega)]
        have hrest : (b ++ c).drop (8 + readUInt32LE (b ++ c) 4) =
            b.drop (8 + readUInt32LE b 4) ++ c := by
          rw [hr4, List.drop_append_of_le_length hcomp]
        rw [hr0, hpacket, hrest]
        have hlt : (b.drop (8 + readUInt32LE b 4)).length < n := by
          rw [List.length_drop]; omega
        rw [ih _ hlt _ rfl]
        simp
      · rw [drain_incomplete parse b h8 hcomp]
        simp
    · rw [drain_short parse b h8]
      simp

/-- A buffer holds no complete frame: either it is shorter than the 8-byte
header, or it is shorter than the full frame announced by the length field at
offset 4. -/
def noCompleteFrame (buffer : List Nat) : Prop :=
  buffer.length < 8 ∨ buffer.length < 8 + readUInt32LE buffer 4

instance (buffer : List Nat) : Decidable (noCompleteFrame buffer) := by
  unfold noCompleteFrame
  infer_instance

/-- The buffer retained after the extraction loop never holds a complete
frame. -/
theorem drain_noCompleteFrame {α : Type} (parse : List Nat → α) (buffer : List Nat) :
    noCompleteFrame (drain parse buffer).2 := by
  generalize hn : buffer.length = n
  induction n using Nat.strong_induction_on generalizing buffer with
  | _ n ih =>
    by_cases h8 : 8 ≤ buffer.length
    · by_cases hcomp : 8 + readUInt32LE buffer 4 ≤ buffer.length
      · rw [drain_step parse buffer h8 hcomp]
        exact ih _ (by rw [List.length_drop]; omega) _ rfl
      · rw [drain_incomplete parse buffer h8 hcomp]
        exact Or.inr (show buffer.length < 8 + readUInt32LE buffer 4 by omega)
    · rw [drain_short parse buffer h8]
      exact Or.inl (show buffer.length < 8 by omega)

/-- On a buffer with no complete frame the extraction loop emits nothing and
retains the buffer unchanged. -/
theorem drain_of_noCompleteFrame {α : Type} (parse : List Nat → α) (buffer : List Nat)
    (h : noCompleteFrame buffer) : drain parse buffer = ([], buffer) := by
  rcases h with h | h
  · exact drain_short parse buffer (by omega)
  · by_cases h8 : 8 ≤ buffer.length
    · exact drain_incomplete parse buffer h8 (by omega)
    · exact drain_short parse buffer h8

/-- Feeding the chunks one at a time from a drained buffer is the same as
draining everything at once. -/
theorem feedAll_join {α : Type} (parse : List Nat → α) (cs : List (List Nat)) :
    ∀ b : List Nat, noCompleteFrame b →
      feedAll parse b cs = drain parse (b ++ cs.flatten) := by
  induction cs with
  | nil =>
    intro b hb
    have hb' : b ++ ([] : List (List Nat)).flatten = b := by simp
    rw [hb', drain_of_noCompleteFrame parse b hb]
    rfl
  | cons c cs ihcs =>
    intro b hb
    show ((drain parse (b ++ c)).1 ++ (feedAll parse (drain parse (b ++ c)).2 cs).1,
      (feedAll parse (drain parse (b ++ c)).2 cs).2) = _
    rw [ihcs (drain parse (b ++ c)).2 (drain_noCompleteFrame parse (b ++ c))]
    rw [List.flatten_cons, ← List.append_assoc]
    rw [drain_append parse (b ++ c) cs.flatten]

/-- Reading the little-endian word written at the head of a buffer recovers
the written value modulo `2^32`. -/
theorem readUInt32LE_write_zero (n : Nat) (tail : List Nat) :
    readUInt32LE (writeUInt32LE n ++ tail) 0 = n % 4294967296 := by
  simp [writeUInt32LE, readUInt32LE]
  omega

/-- Reading at offset 4 skips over one 4-byte little-endian word. -/
theorem readUInt32LE_write_four (n : Nat) (tail : List Nat) :
    readUInt32LE (writeUInt32LE n ++ tail) 4 = readUInt32LE tail 0 := by
  simp [writeUInt32LE, readUInt32LE]

/-- Wire value of every opcode is below `2^32` (it is at most 4). -/
theorem opCode_toNat_lt (op : OpCode) : op.toNat < 4294967296 := by
  cases op <;> simp [OpCode.toNat]

/-- Draining a buffer that starts with one encoded frame emits that frame
and continues on the remaining bytes. -/
theorem drain_frame_cons {α : Type} (parse : List Nat → α) (stringify : α → List Nat)
    (op : OpCode) (p : α) (rest : List Nat)
    (hlen : (stringify p).length < 4294967296) :
    drain parse (sendBytes stringify op p ++ rest) =
      ((op.toNat, parse (stringify p)) :: (drain parse rest).1,
        (drain parse rest).2) := by
  have hbuf : sendBytes stringify op p ++ rest =
      writeUInt32LE op.toNat ++ (writeUInt32LE (stringify p).length ++
        (stringify p ++ rest)) := by
    simp [sendBytes]
  have hlenbuf : (sendBytes stringify op p ++ rest).length =
      8 + (stringify p).length + rest.length := by
    rw [hbuf]
    simp [writeUInt32LE]
    omega
  have hr0 : readUInt32LE (sendBytes stringify op p ++ rest) 0 = op.toNat := by
    rw [hbuf, readUInt32LE_write_zero]
    exact Nat.mod_eq_of_lt (opCode_toNat_lt op)
  have hr4 : readUInt32LE (sendBytes stringify op p ++ rest) 4 =
      (stringify p).length := by
    rw [hbuf, readUInt32LE_write_four, readUInt32LE_write_zero]
    exact Nat.mod_eq_of_lt hlen
  have hdrop8 : (sendBytes stringify op p ++ rest).drop 8 = stringify p ++ rest := by
    rw [hbuf]
    simp [writeUInt32LE]
  rw [drain_step parse _ (by omega) (by rw [hr4]; omega)]
  rw [hr0, hr4, hdrop8]
  have hpacket : (stringify p ++ rest).take (stringify p).length = stringify p :=
    List.take_left _ _
  have hrest : (sendBytes stringify op p ++ rest).drop (8 + (stringify p).length) =
      rest := by
    rw [← List.drop_drop, hdrop8, List.drop_left]
  rw [hpacket, hrest]

/-- The encoded byte stream of a sequence of frames: the concatenation of the
per-frame encodings produced by `SocketConnection.send`. -/
def encodeStream {α : Type} (stringify : α → List Nat)
    (frames : List (OpCode × α)) : List Nat :=
  (frames.map (fun f => sendBytes stringify f.1 f.2)).flatten

/-- Draining the whole encoded stream of a sequence of frames emits exactly
those frames, in order, with an empty retained buffer. -/
theorem drain_encodeStream {α : Type} (parse : List Nat → α) (stringify : α → List Nat)
    (frames : List (OpCode × α))
    (hlen : ∀ f ∈ frames, (stringify f.2).length < 4294967296)
    (hparse : ∀ f ∈ frames, parse (stringify f.2) = f.2) :
    drain parse (encodeStream stringify frames) =
      (frames.map (fun f => (f.1.toNat, f.2)), []) := by
  induction frames with
  | nil =>
    show drain parse [] = _
    rw [drain_short parse [] (by simp)]
    rfl
  | cons f fs ih =>
    rw [encodeStream, List.map_cons, List.flatten_cons]
    rw [drain_frame_cons parse stringify f.1 f.2 _ (hlen f (by simp))]
    rw [hparse f (by simp)]
    rw [show ((fs.map (fun f => sendBytes stringify f.1 f.2)).flatten) =
      encodeStream stringify fs from rfl]
    rw [ih (fun g hg => hlen g (by simp [hg])) (fun g hg => hparse g (by simp [hg]))]
    simp

/-- C1: For every sequence of frames and every partition of its encoded byte
stream into chunks, feeding the decoder the chunks one at a time yields
exactly the same sequence of (opcode, payload) pairs, in the same order, as
feeding the entire stream as one chunk — no frame is lost or duplicated,
whether a frame is split across chunks or several frames arrive coalesced in
one chunk. -/
theorem decoder_chunking_invariant {α : Type} (parse : List Nat → α)
    (stringify : α → List Nat) (frames : List (OpCode × α))
    (chunks : List (List Nat))
    (hlen : ∀ f ∈ frames, (stringify f.2).length < 4294967296)
    (hparse : ∀ f ∈ frames, parse (stringify f.2) = f.2)
    (hsplit : chunks.flatten = encodeStream stringify frames) :
    feedAll parse [] chunks = (frames.map (fun f => (f.1.toNat, f.2)), []) ∧
      feedAll parse [] chunks = feedAll parse [] [chunks.flatten] := by
  have hnil : noCompleteFrame ([] : List Nat) := Or.inl (by simp)
  have h1 : feedAll parse [] chunks = drain parse chunks.flatten := by
    rw [feedAll_join parse chunks [] hnil, List.nil_append]
  have h2 : feedAll parse [] [chunks.flatten] = drain parse chunks.flatten := by
    rw [feedAll_join parse [chunks.flatten] [] hnil]
    simp
  constructor
  · rw [h1, hsplit, drain_encodeStream parse stringify frames hlen hparse]
  · rw [h1, h2]

theorem decoder_chunking_invariant_witness :
    feedAll (fun b => b) [] [[1, 0], [0, 0, 2, 0, 0, 0, 5], [6]] =
      ([(1, [5, 6])], []) ∧
      feedAll (fun b => b) [] [[1, 0], [0, 0, 2, 0, 0, 0, 5], [6]] =
        feedAll (fun b => b) [] [[[1, 0], [0, 0, 2, 0, 0, 0, 5], [6]].flatten] :=
  decoder_chunking_invariant (fun b => b) (fun b => b) [(OpCode.frame, [5, 6])]
    [[1, 0], [0, 0, 2, 0, 0, 0, 5], [6]] (by decide) (by decide) (by decide)

/-- C2: For every opcode and every payload on which the serializer and parser
round-trip (`JSON.parse ∘ JSON.stringify = id`), encoding the pair with
`send`'s framing and running the decoder on the resulting bytes emits exactly
that (opcode, payload) pair. -/
theorem send_decode_roundtrip {α : Type} (parse : List Nat → α)
    (stringify : α → List Nat) (op : OpCode) (p : α)
    (hlen : (stringify p).length < 4294967296)
    (hparse : parse (stringify p) = p) :
    feed parse [] (sendBytes stringify op p) = ([(op.toNat, p)], []) := by
  show drain parse ([] ++ sendBytes stringify op p) = _
  rw [List.nil_append]
  have h := drain_frame_cons parse stringify op p [] hlen
  rw [List.append_nil] at h
  rw [h, hparse, drain_short parse [] (by simp)]

theorem send_decode_roundtrip_witness :
    feed (fun b => b) [] (sendBytes (fun b => b) OpCode.ping [7]) =
      ([(OpCode.ping.toNat, [7])], []) :=
  send_decode_roundtrip (fun b => b) (fun b => b) OpCode.ping [7]
    (by decide) (by decide)

/-- C7: The encoded frame is exactly an 8-byte header — the opcode as a
4-byte little-endian word at offset 0 and the payload byte length as a 4-byte
little-endian word at offset 4 — followed by the payload bytes, and the
length field equals the exact byte length of the payload.  (`send` writes
this concatenation to the socket as a single unit.) -/
theorem send_frame_layout {α : Type} (stringify : α → List Nat) (op : OpCode)
    (p : α) (hlen : (stringify p).length < 4294967296) :
    (sendBytes stringify op p).length = 8 + (stringify p).length ∧
      (sendBytes stringify op p).take 8 =
        writeUInt32LE op.toNat ++ writeUInt32LE (stringify p).length ∧
      readUInt32LE (sendBytes stringify op p) 0 = op.toNat ∧
      readUInt32LE (sendBytes stringify op p) 4 = (stringify p).length ∧
      (sendBytes stringify op p).drop 8 = stringify p := by
  have hbuf : sendBytes stringify op p = writeUInt32LE op.toNat ++
      (writeUInt32LE (stringify p).length ++ stringify p) := by
    simp [sendBytes]
  refine ⟨?_, ?_, ?_, ?_, ?_⟩
  · simp [sendBytes, writeUInt32LE]
    omega
  · simp [sendBytes, writeUInt32LE]
  · rw [hbuf, readUInt32LE_write_zero]
    exact Nat.mod_eq_of_lt (opCode_toNat_lt op)
  · rw [hbuf, readUInt32LE_write_four, readUInt32LE_write_zero]
    exact Nat.mod_eq_of_lt hlen
  · simp [sendBytes, writeUInt32LE]

theorem send_frame_layout_witness :
    (sendBytes (fun b => b) OpCode.close [9, 9]).length = 8 + [9, 9].length ∧
      (sendBytes (fun b => b) OpCode.close [9, 9]).take 8 =
        writeUInt32LE OpCode.close.toNat ++ writeUInt32LE [9, 9].length ∧
      readUInt32LE (sendBytes (fun b => b) OpCode.close [9, 9]) 0 =
        OpCode.close.toNat ∧
      readUInt32LE (sendBytes (fun b => b) OpCode.close [9, 9]) 4 =
        [9, 9].length ∧
      (sendBytes (fun b => b) OpCode.close [9, 9]).drop 8 = [9, 9] :=
  send_frame_layout (fun b => b) OpCode.close [9, 9] (by decide)

/-- C10: After processing any sequence of incoming chunks, the retained
accumulation buffer never contains a complete frame: it holds fewer than 8
bytes, or fewer than `8 + length` total bytes for the little-endian length
read at offset 4 of its leading header. -/
theorem decoder_residual_incomplete {α : Type} (parse : List Nat → α)
    (chunks : List (List Nat)) :
    ((feedAll parse [] chunks).2).length < 8 ∨
      ((feedAll parse [] chunks).2).length <
        8 + readUInt32LE (feedAll parse [] chunks).2 4 := by
  have h := feedAll_join parse chunks [] (Or.inl (by simp))
  rw [List.nil_append] at h
  rw [h]
  exact drain_noCompleteFrame parse chunks.flatten

/-- Outcome the operating system reports for a connection attempt at one pipe
index (the `'connect'` / `'error'` events of the `node:net` socket). -/
inductive PipeOutcome where
  | ok
  | enoent
  | ioError (code : String)
deriving DecidableEq, Repr

/-- Failures `SocketConnection.connect` can end in: the exhaustion error
thrown once the index passes 9 (message: could not find a running Discord
instance after searching 10 pipes), or the rejected I/O error. -/
inductive ConnectError where
  | exhausted
  | ioError (code : String)
deriving DecidableEq, Repr

/-- Observable socket-handle events of the connect retry loop. -/
inductive ConnEvent where
  | attempt (index : Nat)
  | destroySocket
deriving DecidableEq, Repr

/-- `SocketConnection.connect(index)` (src/src/connection.ts lines 146-179):
if `index > 9`, throw the exhaustion error; otherwise open the socket at pipe
`index`; on the `'error'` event destroy the socket, then retry at `index + 1`
when `err.code === 'ENOENT'` and reject with the error otherwise.  `env`
gives the outcome of the attempt at each index; the result pairs the trace of
handle events with the promise outcome. -/
def connectFrom (env : Nat → PipeOutcome) (index : Nat) :
    List ConnEvent × Except ConnectError Unit :=
  if index > 9 then ([], .error .exhausted)
  else
    match env index with
    | .ok => ([.attempt index], .ok ())
    | .enoent =>
      let rest := connectFrom env (index + 1)
      (.attempt index :: .destroySocket :: rest.1, rest.2)
    | .ioError code => ([.attempt index, .destroySocket], .error (.ioError code))
termination_by 10 - index
decreasing_by omega

/-- The event trace of `j` consecutive failed "not found" attempts at indices
`0, …, j-1`, each destroying the partially opened handle. -/
def enoentTrace : Nat → List ConnEvent
  | 0 => []
  | j + 1 => enoentTrace j ++ [.attempt j, .destroySocket]

theorem connectFrom_over (env : Nat → PipeOutcome) (index : Nat) (h : index > 9) :
    connectFrom env index = ([], .error .exhausted) := by
  rw [connectFrom]
  simp [h]

theorem connectFrom_ok (env : Nat → PipeOutcome) (index : Nat)
    (h : ¬ index > 9) (he : env index = .ok) :
    connectFrom env index = ([.attempt index], .ok ()) := by
  rw [connectFrom]
  simp [h, he]

theorem connectFrom_enoent (env : Nat → PipeOutcome) (index : Nat)
    (h : ¬ index > 9) (he : env index = .enoent) :
    connectFrom env index =
      (.attempt index :: .destroySocket :: (connectFrom env (index + 1)).1,
        (connectFrom env (index + 1)).2) := by
  rw [connectFrom]
  simp [h, he]

theorem connectFrom_ioError (env : Nat → PipeOutcome) (index : Nat) (code : String)
    (h : ¬ index > 9) (he : env index = .ioError code) :
    connectFrom env index =
      ([.attempt index, .destroySocket], .error (.ioError code)) := by
  rw [connectFrom]
  simp [h, he]

/-- If all indices below `j` report "not found", the run from 0 is the
`j`-fold retry trace followed by the run from `j`. -/
theorem connect_skip (env : Nat → PipeOutcome) :
    ∀ j, j ≤ 10 → (∀ i, i < j → env i = .enoent) →
      connectFrom env 0 =
        (enoentTrace j ++ (connectFrom env j).1, (connectFrom env j).2) := by
  intro j
  induction j with
  | zero =>
    intro _ _
    simp [enoentTrace]
  | succ j ih =>
    intro hj he
    rw [ih (by omega) (fun i hi => he i (by omega))]
    rw [connectFrom_enoent env j (by omega) (he j (by omega))]
    simp [enoentTrace]

/-- The run rejects with the exhaustion error exactly when every index from
`index` through 9 reports "not found". -/
theorem connectFrom_exhausted_iff (env : Nat → PipeOutcome) :
    ∀ fuel index, 10 - index ≤ fuel →
      ((connectFrom env index).2 = .error .exhausted ↔
        ∀ i, index ≤ i → i ≤ 9 → env i = .enoent) := by
  intro fuel
  induction fuel with
  | zero =>
    intro index hidx
    rw [connectFrom_over env index (by omega)]
    constructor
    · intro _ i hi hi9
      omega
    · intro _
      rfl
  | succ fuel ih =>
    intro index hidx
    by_cases h9 : index > 9
    · rw [connectFrom_over env index h9]
      constructor
      · intro _ i hi hi9
        omega
      · intro _
        rfl
    · cases henv : env index with
      | ok =>
        rw [connectFrom_ok env index h9 henv]
        constructor
        · intro hcontra
          exact absurd hcontra (by simp)
        · intro hall
          have := hall index (le_refl index) (by omega)
          rw [henv] at this
          exact absurd this (by simp)
      | enoent =>
        rw [connectFrom_enoent env index h9 henv]
        rw [ih (index + 1) (by omega)]
        constructor
        · intro hall i hi hi9
          rcases Nat.eq_or_lt_of_le hi with heq | hlt
          · rw [← heq]
            exact henv
          · exact hall i (by omega) hi9
        · intro hall i hi hi9
          exact hall i (by omega) hi9
      | ioError code =>
        rw [connectFrom_ioError env index code h9 henv]
        constructor
        · intro hcontra
          exact absurd hcontra (by simp)
        · intro hall
          have := hall index (le_refl index) (by omega)
          rw [henv] at this
          exact absurd this (by simp)

/-- C3: `connect()` tries candidate pipe indices in order starting at 0; on a
"not found" (ENOENT) failure it destroys the current handle and retries with
index + 1; on any other I/O error at any index it fails immediately with that
error and does not advance the index; and it fails with the
endpoints-exhausted error only after indices 0 through 9 have all failed with
"not found". -/
theorem connect_retry_spec (env : Nat → PipeOutcome) :
    (∀ j, j ≤ 9 → (∀ i, i < j → env i = .enoent) → env j = .ok →
      connectFrom env 0 = (enoentTrace j ++ [.attempt j], .ok ())) ∧
    (∀ j code, j ≤ 9 → (∀ i, i < j → env i = .enoent) → env j = .ioError code →
      connectFrom env 0 =
        (enoentTrace j ++ [.attempt j, .destroySocket], .error (.ioError code))) ∧
    ((connectFrom env 0).2 = .error .exhausted ↔ ∀ i, i ≤ 9 → env i = .enoent) ∧
    ((∀ i, i ≤ 9 → env i = .enoent) →
      connectFrom env 0 = (enoentTrace 10, .error .exhausted)) := by
  refine ⟨?_, ?_, ?_, ?_⟩
  · intro j hj he hok
    rw [connect_skip env j (by omega) he, connectFrom_ok env j (by omega) hok]
  · intro j code hj he hio
    rw [connect_skip env j (by omega) he, connectFrom_ioError env j code (by omega) hio]
  · rw [connectFrom_exhausted_iff env 10 0 (by omega)]
    constructor
    · intro hall i hi9
      exact hall i (Nat.zero_le i) hi9
    · intro hall i _ hi9
      exact hall i hi9
  · intro hall
    rw [connect_skip env 10 (le_refl 10) (fun i hi => hall i (by omega))]
    rw [connectFrom_over env 10 (by omega)]
    simp

/-- A pipe environment for the witness: index 0 is missing, index 1 fails
with a non-ENOENT error. -/
def envPermDenied : Nat → PipeOutcome := fun i =>
  if i = 0 then .enoent else if i = 1 then .ioError "EPERM" else .ok

theorem connect_retry_spec_witness :
    connectFrom envPermDenied 0 =
      (enoentTrace 1 ++ [.attempt 1, .destroySocket],
        .error (.ioError "EPERM")) :=
  (connect_retry_spec envPermDenied).2.1 1 "EPERM" (by decide)
    (by decide) (by decide)

/-- A presence button (`{ label, url }`). -/
structure Button where
  label : String
  url : String
deriving DecidableEq, Repr

/-- Party information as stored by `setParty`: `{ id, size: [current, max] }`. -/
structure Party where
  id : String
  size : Nat × Nat
deriving DecidableEq, Repr

/-- Join/spectate/match secrets (`match` is a Lean keyword; the field is
embedded as `matchSecret`). -/
structure Secrets where
  join : Option String
  spectate : Option String
  matchSecret : Option String
deriving DecidableEq, Repr

/-- Image assets with tooltip texts. -/
structure Assets where
  large_image : Option String
  large_text : Option String
  small_image : Option String
  small_text : Option String
deriving DecidableEq, Repr

/-- Start/end timestamps (`end` is a Lean keyword; the field is embedded as
`endTime`). -/
structure Timestamps where
  start : Option Nat
  endTime : Option Nat
deriving DecidableEq, Repr

/-- The partially built activity payload held by the builder
(`private payload: Partial<ActivityPayload> = {}` in src/src/builder.ts).
A field absent from the JavaScript object is `none` (`instance` is a Lean
keyword; the field is embedded as `instanceFlag`). -/
structure ActivityPayload where
  type : Option Nat
  details : Option String
  state : Option String
  assets : Option Assets
  timestamps : Option Timestamps
  instanceFlag : Option Bool
  party : Option Party
  secrets : Option Secrets
  buttons : Option (List Button)
deriving DecidableEq, Repr

/-- The payload of a freshly constructed `PresenceBuilder`: the empty object. -/
def emptyPayload : ActivityPayload :=
  ⟨none, none, none, none, none, none, none, none, none⟩

namespace PresenceBuilder

/-- `PresenceBuilder.setDetails` (src/src/builder.ts lines 28-34): rejects a
string longer than 128 characters, otherwise stores it. -/
def setDetails (details : String) (pl : ActivityPayload) :
    Except String ActivityPayload :=
  if details.length > 128 then
    .error "Details must be 128 characters or fewer."
  else
    .ok { pl with details := some details }

/-- `PresenceBuilder.setState` (src/src/builder.ts lines 42-48). -/
def setState (state : String) (pl : ActivityPayload) :
    Except String ActivityPayload :=
  if state.length > 128 then
    .error "State must be 128 characters or fewer."
  else
    .ok { pl with state := some state }

/-- Truthiness of `this.payload.buttons?.length`: `undefined` and an empty
array are falsy; a nonempty array is truthy. -/
def hasNonemptyButtons (pl : ActivityPayload) : Bool :=
  match pl.buttons with
  | some (_ :: _) => true
  | _ => false

/-- `PresenceBuilder.setParty` (src/src/builder.ts lines 148-154): fails when
`this.payload.buttons?.length` is truthy, otherwise stores
`{ id, size: [current, max] }`. -/
def setParty (id : String) (current maxSize : Nat) (pl : ActivityPayload) :
    Except String ActivityPayload :=
  if hasNonemptyButtons pl then
    .error "Discord RPC does not display Buttons if Party or Secrets are present. Cannot set Party."
  else
    .ok { pl with party := some ⟨id, (current, maxSize)⟩ }

/-- `PresenceBuilder.setSecrets` (src/src/builder.ts lines 161-167). -/
def setSecrets (secrets : Secrets) (pl : ActivityPayload) :
    Except String ActivityPayload :=
  if hasNonemptyButtons pl then
    .error "Discord RPC does not display Buttons if Party or Secrets are present. Cannot set Secrets."
  else
    .ok { pl with secrets := some secrets }

/-- `PresenceBuilder.validateButton` (src/src/builder.ts lines 238-241). -/
def validateButton (label url : String) : Except String Unit :=
  if label.length > 32 then
    .error "Button label must be 32 characters or fewer."
  else if url.length > 512 then
    .error "Button URL must be 512 characters or fewer."
  else
    .ok ()

/-- The `for`-loop of `setButtons`: validate each button in order, stopping
at the first failure. -/
def validateButtons : List Button → Except String Unit
  | [] => .ok ()
  | b :: rest => do
    validateButton b.label b.url
    validateButtons rest

/-- `PresenceBuilder.setButtons` (src/src/builder.ts lines 186-198): at most
2 buttons; fails eagerly when party or secrets is present; validates each
button; stores the array (possibly empty). -/
def setButtons (buttons : List Button) (pl : ActivityPayload) :
    Except String ActivityPayload :=
  if buttons.length > 2 then
    .error "A maximum of 2 buttons are allowed."
  else if pl.party.isSome || pl.secrets.isSome then
    .error "Discord RPC does not display Buttons if Party or Secrets are present. Buttons may be ignored."
  else do
    validateButtons buttons
    return { pl with buttons := some buttons }

/-- `PresenceBuilder.addButton` (src/src/builder.ts lines 207-218): ensure a
buttons array exists, reject a third button, validate the label and url, then
push.  Note: unlike `setButtons`, the source performs no party/secrets check
here. -/
def addButton (label url : String) (pl : ActivityPayload) :
    Except String ActivityPayload :=
  let pl := if pl.buttons.isNone then { pl with buttons := some [] } else pl
  if (pl.buttons.getD []).length ≥ 2 then
    .error "A maximum of 2 buttons are allowed."
  else do
    validateButton label url
    return { pl with buttons := some (pl.buttons.getD [] ++ [⟨label, url⟩]) }

/-- `PresenceBuilder.build` (src/src/builder.ts lines 224-230): the final
conflict check, then `return this.payload as ActivityPayload`. -/
def build (pl : ActivityPayload) : Except String ActivityPayload :=
  if hasNonemptyButtons pl && (pl.party.isSome || pl.secrets.isSome) then
    .error "Discord RPC does not display Buttons if Party or Secrets are present. Buttons may be ignored."
  else
    .ok pl

end PresenceBuilder

/-- `build()` returns `this.payload` itself (`return this.payload as
ActivityPayload`, src/src/builder.ts line 229) — a reference to the builder's
internal object, not a copy — and every setter mutates that same object in
place (`this.payload.x = …`).  Dereferencing the reference returned by
`build()` once the builder has later reached state `pl` therefore reads `pl`,
not the state the builder had when `build()` was called. -/
def derefBuilt (pl : ActivityPayload) : ActivityPayload := pl

/-- C4 counterexample: `setButtons([])` stores an empty buttons array, and
`setParty` called on that builder — with buttons already set — succeeds
instead of failing, because `this.payload.buttons?.length` is `0`, which is
falsy. -/
theorem setParty_after_empty_setButtons :
    PresenceBuilder.setButtons [] emptyPayload =
      .ok { emptyPayload with buttons := some [] } ∧
    PresenceBuilder.setParty "p" 1 2 { emptyPayload with buttons := some [] } =
      .ok { emptyPayload with buttons := some [], party := some ⟨"p", (1, 2)⟩ } :=
  ⟨rfl, rfl⟩

/-- C4 (amended): `setDetails` with a string longer than 128 characters fails
with the validation error; `setParty` fails when at least one button is
already present (a buttons field holding an empty array does not trigger the
failure); and `build()` fails whenever both at least one button and party (or
secrets) are present in the accumulated payload, regardless of the order in
which those fields were set. -/
theorem builder_validation_spec (pl : ActivityPayload) :
    (∀ d : String, d.length > 128 →
      PresenceBuilder.setDetails d pl =
        .error "Details must be 128 characters or fewer.") ∧
    (∀ (id : String) (cur mx : Nat), PresenceBuilder.hasNonemptyButtons pl = true →
      PresenceBuilder.setParty id cur mx pl =
        .error "Discord RPC does not display Buttons if Party or Secrets are present. Cannot set Party.") ∧
    (PresenceBuilder.hasNonemptyButtons pl = true →
      (pl.party.isSome ∨ pl.secrets.isSome) →
      PresenceBuilder.build pl =
        .error "Discord RPC does not display Buttons if Party or Secrets are present. Buttons may be ignored.") := by
  refine ⟨?_, ?_, ?_⟩
  · intro d hd
    simp [PresenceBuilder.setDetails, hd]
  · intro id cur mx hbtn
    simp [PresenceBuilder.setParty, hbtn]
  · intro hbtn hps
    have : (pl.party.isSome || pl.secrets.isSome) = true := by
      rcases hps with h | h <;> simp [h]
    simp [PresenceBuilder.build, hbtn, this]

/-- A builder payload with one button plus a party, for the witnesses. -/
def conflictedPayload : ActivityPayload :=
  { emptyPayload with
    buttons := some [⟨"hi", "https://example.com"⟩]
    party := some ⟨"p", (1, 2)⟩ }

theorem builder_validation_spec_witness :
    PresenceBuilder.setDetails (String.mk (List.replicate 129 'a')) conflictedPayload =
      .error "Details must be 128 characters or fewer." ∧
    PresenceBuilder.setParty "p" 1 2 conflictedPayload =
      .error "Discord RPC does not display Buttons if Party or Secrets are present. Cannot set Party." ∧
    PresenceBuilder.build conflictedPayload =
      .error "Discord RPC does not display Buttons if Party or Secrets are present. Buttons may be ignored." :=
  ⟨(builder_validation_spec conflictedPayload).1 _
      (by simp [String.length]),
    (builder_validation_spec conflictedPayload).2.1 "p" 1 2 (by decide),
    (builder_validation_spec conflictedPayload).2.2 (by decide) (Or.inl (by decide))⟩

/-- C8 (code behaviour at the failing input): with a party already present,
`addButton` succeeds — the source's `addButton` performs no party/secrets
check, contradicting its own doc comment, and the conflict is only caught
later by `build()`. -/
theorem addButton_after_setParty_succeeds :
    PresenceBuilder.setParty "p" 1 2 emptyPayload =
      .ok { emptyPayload with party := some ⟨"p", (1, 2)⟩ } ∧
    PresenceBuilder.addButton "hi" "https://example.com"
        { emptyPayload with party := some ⟨"p", (1, 2)⟩ } =
      .ok { emptyPayload with
        party := some ⟨"p", (1, 2)⟩
        buttons := some [⟨"hi", "https://example.com"⟩] } ∧
    PresenceBuilder.build
        { emptyPayload with
          party := some ⟨"p", (1, 2)⟩
          buttons := some [⟨"hi", "https://example.com"⟩] } =
      .error "Discord RPC does not display Buttons if Party or Secrets are present. Buttons may be ignored." :=
  ⟨rfl, rfl, rfl⟩

/-- C9 counterexample: `build()` hands out the builder's internal payload
object; a later `setDetails` on the same builder changes the `details` field
observed through that returned object, so the already-returned payload is not
immutable. -/
theorem build_alias_counterexample :
    PresenceBuilder.setDetails "a" emptyPayload =
      .ok { emptyPayload with details := some "a" } ∧
    PresenceBuilder.build { emptyPayload with details := some "a" } =
      .ok { emptyPayload with details := some "a" } ∧
    PresenceBuilder.setDetails "b" { emptyPayload with details := some "a" } =
      .ok { emptyPayload with details := some "b" } ∧
    derefBuilt { emptyPayload with details := some "b" } ≠
      { emptyPayload with details := some "a" } :=
  ⟨rfl, rfl, rfl, by decide⟩

/-- C9 (amended): the payload returned by `build()` aliases the builder's
internal state: whenever `build()` succeeds it returns the current payload
object itself, and a subsequent successful setter call on the same builder
changes the field observed through that already-returned payload. -/
theorem build_returns_alias (pl built : ActivityPayload) (d : String)
    (hbuild : PresenceBuilder.build pl = .ok built)
    (hd : d.length ≤ 128) (hne : pl.details ≠ some d) :
    built = pl ∧
    PresenceBuilder.setDetails d pl = .ok { pl with details := some d } ∧
    (derefBuilt { pl with details := some d }).details = some d ∧
    (derefBuilt { pl with details := some d }).details ≠ built.details := by
  have hb : built = pl := by
    simp only [PresenceBuilder.build] at hbuild
    by_cases hc : (PresenceBuilder.hasNonemptyButtons pl &&
        (pl.party.isSome || pl.secrets.isSome)) = true
    · rw [if_pos hc] at hbuild
      exact absurd hbuild (by simp)
    · rw [if_neg hc] at hbuild
      injection hbuild with h
      exact h.symm
  refine ⟨hb, ?_, rfl, ?_⟩
  · simp only [PresenceBuilder.setDetails]
    rw [if_neg (by omega)]
  · rw [hb]
    intro h
    exact hne h.symm

theorem build_returns_alias_witness :
    { emptyPayload with details := some "a" } =
        { emptyPayload with details := some "a" } ∧
      PresenceBuilder.setDetails "b" { emptyPayload with details := some "a" } =
        .ok { emptyPayload with details := some "b" } ∧
      (derefBuilt { emptyPayload with details := some "b" }).details = some "b" ∧
      (derefBuilt { emptyPayload with details := some "b" }).details ≠
        ({ emptyPayload with details := some "a" } : ActivityPayload).details :=
  build_returns_alias { emptyPayload with details := some "a" }
    { emptyPayload with details := some "a" } "b" rfl (by decide) (by decide)

/-- A request handler registered by `Client.request` via `this.on(cmd,
handler)` (src/unnamed/part_001 lines 129-153): the handler closure is
determined by the command name it listens on and the nonce it matches. -/
structure Listener where
  event : String
  nonce : String
deriving DecidableEq, Repr

/-- The decoded payload of an incoming message, with the fields
`handleIncoming` inspects: `data.evt`, `data.cmd`, `data.nonce`, and the
embedded `data.data` (for an ERROR event, its `message`), abstracted as one
string. -/
structure FrameData where
  evt : Option String
  cmd : String
  nonce : Option String
  data : String
deriving DecidableEq, Repr

/-- Observable effects of handling one incoming message: events emitted on
the client and resolutions/rejections of pending request promises. -/
inductive ClientOutput where
  | emitDisconnected (d : FrameData)
  | emitPing (d : FrameData)
  | emitReady (d : FrameData)
  | emitErrorEvent (message : String)
  | resolveRequest (nonce : String) (data : String)
  | rejectRequest (nonce : String) (message : String)
deriving DecidableEq, Repr

/-- The event-emitter client state: the ready flag and the registered request
handlers, in registration order. -/
structure RpcClient where
  isReady : Bool
  listeners : List Listener
deriving DecidableEq, Repr

/-- `this.emit(data.cmd, data)` as seen by the request handlers
(src/unnamed/part_001 lines 134-148): each handler listening on `cmd` whose
nonce equals `data.nonce` removes itself and settles its promise — rejecting
when `data.evt === 'ERROR'`, resolving otherwise; all other handlers stay
registered. -/
def dispatchCmd : List Listener → String → FrameData → List Listener × List ClientOutput
  | [], _, _ => ([], [])
  | l :: ls, cmd, d =>
    let rest := dispatchCmd ls cmd d
    if l.event = cmd ∧ d.nonce = some l.nonce then
      (rest.1,
        (if d.evt = some "ERROR" then ClientOutput.rejectRequest l.nonce d.data
         else ClientOutput.resolveRequest l.nonce d.data) :: rest.2)
    else
      (l :: rest.1, rest.2)

/-- `Client.handleIncoming(op, data)` (src/unnamed/part_001 lines 45-72):
CLOSE emits `disconnected` and returns; PING emits `ping` and returns; FRAME
sets the ready flag and emits `ready` on a READY event, emits an error on an
ERROR event, and then emits `data.cmd` — which drives the request handlers.
Other opcodes do nothing. -/
def handleIncoming (st : RpcClient) (op : OpCode) (d : FrameData) :
    RpcClient × List ClientOutput :=
  match op with
  | .close => (st, [.emitDisconnected d])
  | .ping => (st, [.emitPing d])
  | .frame =>
    let st1 := if d.evt = some "READY" then { st with isReady := true } else st
    let readyOuts := if d.evt = some "READY" then [ClientOutput.emitReady d] else []
    let errorOuts := if d.evt = some "ERROR" then [ClientOutput.emitErrorEvent d.data] else []
    let disp := dispatchCmd st1.listeners d.cmd d
    ({ st1 with listeners := disp.1 }, readyOuts ++ errorOuts ++ disp.2)
  | .handshake => (st, [])
  | .pong => (st, [])

/-- `Client.request(cmd, args)` (src/unnamed/part_001 lines 129-153):
register a handler for `cmd` with a fresh nonce, then send the FRAME
`{cmd, args, nonce}`; the returned pair is the new client state and the
`(opcode, cmd, nonce)` of the frame written to the socket. -/
def request (st : RpcClient) (cmd nonce : String) :
    RpcClient × (OpCode × String × String) :=
  ({ st with listeners := st.listeners ++ [⟨cmd, nonce⟩] }, (.frame, cmd, nonce))

example :
    handleIncoming ⟨true, [⟨"A", "n"⟩]⟩ .frame ⟨none, "A", some "n", "payload"⟩ =
      (⟨true, []⟩, [.resolveRequest "n" "payload"]) := rfl

/-- C5 counterexample: a client with one outstanding pending request receives
a CLOSE-opcode message; the only output is the `disconnected` event — the
pending entry stays registered and no resolution or rejection (in particular
no closed-connection error) is produced, so the caller stays pending. -/
theorem close_no_drain_counterexample :
    (request ⟨true, []⟩ "SET_ACTIVITY" "n1").1 =
      ⟨true, [⟨"SET_ACTIVITY", "n1"⟩]⟩ ∧
    handleIncoming ⟨true, [⟨"SET_ACTIVITY", "n1"⟩]⟩ .close ⟨none, "", none, ""⟩ =
      (⟨true, [⟨"SET_ACTIVITY", "n1"⟩]⟩,
        [.emitDisconnected ⟨none, "", none, ""⟩]) :=
  ⟨rfl, rfl⟩

/-- C5 (amended): when a CLOSE-opcode message arrives, the client only emits
the `disconnected` event; outstanding pending command requests are left
registered and none is resolved or rejected — there is no drain-on-close. -/
theorem close_leaves_pending_requests (st : RpcClient) (d : FrameData) :
    handleIncoming st .close d = (st, [.emitDisconnected d]) := rfl

/-- An outbound SET_ACTIVITY frame as built by `Client.setActivity`:
`{cmd: 'SET_ACTIVITY', args: {pid, activity}, nonce}` sent with the FRAME
opcode. -/
structure SetActivityFrame where
  op : OpCode
  cmd : String
  pid : Nat
  activity : ActivityPayload
  nonce : String
deriving DecidableEq, Repr

namespace Client

/-- `Client.setActivity(activity)` (src/src/client.ts lines 83-97, identical
in src/unnamed/part_001 lines 222-236): when the client is not ready, log the
warning and return without touching the socket; otherwise send exactly one
SET_ACTIVITY frame.  `pid` and `nonce` stand for `process.pid` and
`crypto.randomUUID()`.  Result: the frames written to the socket and the
warnings logged. -/
def setActivity (isReady : Bool) (pid : Nat) (nonce : String)
    (activity : ActivityPayload) : List SetActivityFrame × List String :=
  if !isReady then
    ([], ["Attempted to set activity before client was ready."])
  else
    ([⟨.frame, "SET_ACTIVITY", pid, activity, nonce⟩], [])

end Client

/-- C6: calling `setActivity` while the client is not yet ready performs no
socket write and sends no frame; it only reports the warning and returns. -/
theorem setActivity_not_ready (isReady : Bool) (pid : Nat) (nonce : String)
    (activity : ActivityPayload) (h : isReady = false) :
    Client.setActivity isReady pid nonce activity =
      ([], ["Attempted to set activity before client was ready."]) := by
  rw [h]
  rfl

theorem setActivity_not_ready_witness :
    Client.setActivity false 1 "nonce-1" emptyPayload =
      ([], ["Attempted to set activity before client was ready."]) :=
  setActivity_not_ready false 1 "nonce-1" emptyPayload rfl

end DiscordRPC
